import Mathlib

/-!
Verification development for the CryptoCell 310 driver
(`chips/nrf52840/src/cryptocell/`): a shallow embedding of the driver's
hash/HMAC engine, power controller, interrupt demultiplexer and AES facade,
together with theorems settling the specification claims.

Machine integers are modelled as `Nat` with explicit reduction modulo
`2^32` / `2^64` where the source relies on fixed-width behaviour.
-/

namespace CC

/-- Reduce to a 32-bit value. -/
def w32 (n : Nat) : Nat := n % 2 ^ 32

/-- Reduce to a 64-bit value. -/
def w64 (n : Nat) : Nat := n % 2 ^ 64

/-- Rotate a 32-bit word right by `n` bits (`0 < n < 32`). -/
def rotr (n x : Nat) : Nat := w32 ((x >>> n) ||| (x <<< (32 - n)))

/-- Big-endian bytes of a 32-bit word, most significant first
(`u32::to_be_bytes` in the source). -/
def wordBE (x : Nat) : List Nat :=
  [x / 2 ^ 24 % 256, x / 2 ^ 16 % 256, x / 2 ^ 8 % 256, x % 256]

/-- Big-endian bytes of a 64-bit value (used in SHA-256 length padding). -/
def be64 (x : Nat) : List Nat :=
  [x / 2 ^ 56 % 256, x / 2 ^ 48 % 256, x / 2 ^ 40 % 256, x / 2 ^ 32 % 256,
   x / 2 ^ 24 % 256, x / 2 ^ 16 % 256, x / 2 ^ 8 % 256, x % 256]

/-- Group a byte list into big-endian 32-bit words (4 bytes per word). -/
def bytesToWordsBE : List Nat → List Nat
  | a :: b :: c :: d :: rest =>
      (a * 2 ^ 24 + b * 2 ^ 16 + c * 2 ^ 8 + d) :: bytesToWordsBE rest
  | _ => []

/-- The SHA-256 round constants (decimal). -/
def sha256K : List Nat :=
  [1116352408, 1899447441, 3049323471, 3921009573, 961987163, 1508970993,
   2453635748, 2870763221, 3624381080, 310598401, 607225278, 1426881987,
   1925078388, 2162078206, 2614888103, 3248222580, 3835390401, 4022224774,
   264347078, 604807628, 770255983, 1249150122, 1555081692, 1996064986,
   2554220882, 2821834349, 2952996808, 3210313671, 3336571891, 3584528711,
   113926993, 338241895, 666307205, 773529912, 1294757372, 1396182291,
   1695183700, 1986661051, 2177026350, 2456956037, 2730485921, 2820302411,
   3259730800, 3345764771, 3516065817, 3600352804, 4094571909, 275423344,
   430227734, 506948616, 659060556, 883997877, 958139571, 1322822218,
   1537002063, 1747873779, 1955562222, 2024104815, 2227730452, 2361852424,
   2428436474, 2756734187, 3204031479, 3329325298]

/-- SHA-256 big sigma-0. -/
def bSig0 (x : Nat) : Nat := rotr 2 x ^^^ rotr 13 x ^^^ rotr 22 x

/-- SHA-256 big sigma-1. -/
def bSig1 (x : Nat) : Nat := rotr 6 x ^^^ rotr 11 x ^^^ rotr 25 x

/-- SHA-256 small sigma-0. -/
def sSig0 (x : Nat) : Nat := rotr 7 x ^^^ rotr 18 x ^^^ (x >>> 3)

/-- SHA-256 small sigma-1. -/
def sSig1 (x : Nat) : Nat := rotr 17 x ^^^ rotr 19 x ^^^ (x >>> 10)

/-- SHA-256 choice function. -/
def chFn (x y z : Nat) : Nat := (x &&& y) ^^^ ((x ^^^ 0xffffffff) &&& z)

/-- SHA-256 majority function. -/
def majFn (x y z : Nat) : Nat := (x &&& y) ^^^ (x &&& z) ^^^ (y &&& z)

/-- Extend a partial SHA-256 message schedule by one word. -/
def scheduleStep (ws : List Nat) : List Nat :=
  let n := ws.length
  ws ++ [w32 (sSig1 (ws.getD (n - 2) 0) + ws.getD (n - 7) 0 +
              sSig0 (ws.getD (n - 15) 0) + ws.getD (n - 16) 0)]

/-- The 64-word SHA-256 message schedule of a 64-byte block. -/
def sha256Schedule (block : List Nat) : List Nat :=
  (List.range 48).foldl (fun ws _ => scheduleStep ws) (bytesToWordsBE block)

/-- One SHA-256 round on the working variables `[a,b,c,d,e,f,g,h]`,
where `kw` is the round constant already added to the schedule word. -/
def sha256Round (st : List Nat) (kw : Nat) : List Nat :=
  match st with
  | [a, b, c, d, e, f, g, h] =>
      let t1 := w32 (h + bSig1 e + chFn e f g + kw)
      let t2 := w32 (bSig0 a + majFn a b c)
      [w32 (t1 + t2), a, b, c, w32 (d + t1), e, f, g]
  | other => other

/-- The SHA-256 compression function: absorb one 64-byte block into an
8-word state. This is the cryptographic primitive realised by the
hardware hash engine when SHA-256 mode is selected. -/
def sha256Compress (ctx block : List Nat) : List Nat :=
  let kws := List.zipWith (fun k w => w32 (k + w)) sha256K (sha256Schedule block)
  let fin := kws.foldl sha256Round ctx
  List.zipWith (fun x y => w32 (x + y)) ctx fin

/-- A hardware compression primitive: state, 64-byte block, new state.
The hash machinery below is parametric in it; `sha256Compress` is the
instance for the SHA-256 mode. -/
abbrev CompressFn := List Nat → List Nat → List Nat

/-- Block-absorption worker, structurally recursive on a fuel bound so
that it reduces by iota rules; `fuel = data.length` always suffices
since every step consumes 64 bytes. -/
def compressBlocksAux (f : CompressFn) : Nat → List Nat → List Nat → List Nat
  | 0, ctx, _ => ctx
  | fuel + 1, ctx, data =>
      if data.length < 64 then ctx
      else compressBlocksAux f fuel (f ctx (data.take 64)) (data.drop 64)

/-- Modelled from the spec: the hardware hash data path absorbs DMA data
block by block (64 bytes at a time); trailing bytes that do not complete a
block are not absorbed (the driver only submits whole blocks except when
hardware padding completes the last one). -/
def compressBlocks (f : CompressFn) (ctx data : List Nat) : List Nat :=
  compressBlocksAux f data.length ctx data

/-- Modelled from the spec: the suffix the hardware's automatic padder
appends after `dataLen` streamed bytes, embedding the final value
`lenAfter` of the hash-length registers (in bits) big-endian, per the
standard Merkle–Damgard padding rule. -/
def hwPadSuffix (dataLen lenAfter : Nat) : List Nat :=
  0x80 :: List.replicate ((119 - dataLen % 64) % 64) 0 ++ be64 (w64 (8 * lenAfter))

/-- Modelled from the spec: a final (auto-padded) data submission. The
hardware counts the streamed bytes into its length registers and pads
using the resulting total. -/
def hwFeedFinal (f : CompressFn) (ctx data : List Nat) (lenBefore : Nat) : List Nat :=
  compressBlocks f ctx (data ++ hwPadSuffix data.length (w64 (lenBefore + data.length)))

/-- Modelled from the spec: the explicit `DO_PAD` trigger used for a
zero-byte data vector; pads a block-aligned message whose length registers
hold `len`. -/
def hwDoPad (f : CompressFn) (ctx : List Nat) (len : Nat) : List Nat :=
  compressBlocks f ctx (0x80 :: List.replicate 55 0 ++ be64 (w64 (8 * len)))

/-- The reference SHA-256 digest of a byte string, written from the spec's
words (initial constants, standard padding, big-endian serialisation).
Used as the comparison point for the driver-level theorems. -/
def SHA256_INIT : List Nat :=
  [1779033703, 3144134277, 1013904242, 2773480762,
   1359893119, 2600822924, 528734635, 1541459225]

/-- MD5 initial state constants from the source (decimal). -/
def MD5_INIT : List Nat := [1732584193, 4023233417, 2562383102, 271733878]

/-- SHA-1 initial state constants from the source (decimal). -/
def SHA1_INIT : List Nat :=
  [1732584193, 4023233417, 2562383102, 271733878, 3285377520]

/-- SHA-224 initial state constants from the source (decimal). -/
def SHA224_INIT : List Nat :=
  [3238371032, 914150663, 812702999, 4144912697,
   4290775857, 1750603025, 1694076839, 3204075428]

/-- Serialise the first `n` context words big-endian. -/
def serializeWords (ctx : List Nat) (n : Nat) : List Nat :=
  ((List.range n).map (fun i => wordBE (ctx.getD i 0))).flatten

/-- Reference SHA-256 of a message (spec definition, not driver code). -/
def sha256Spec (msg : List Nat) : List Nat :=
  serializeWords
    (compressBlocks sha256Compress SHA256_INIT
      (msg ++ hwPadSuffix msg.length msg.length)) 8

/-- Reference two-pass HMAC-SHA256 (spec definition, not driver code):
inner hash of `ipad xor key` followed by the message, outer hash of
`opad xor key` followed by the inner digest. -/
def hmacSha256Spec (key msg : List Nat) : List Nat :=
  let ipadBlk := (List.range 64).map (fun i => 0x36 ^^^ key.getD i 0)
  let opadBlk := (List.range 64).map (fun i => 0x5c ^^^ key.getD i 0)
  sha256Spec (opadBlk ++ sha256Spec (ipadBlk ++ msg))

/-! ## Driver data model (`cryptocell/mod.rs`) -/

/-- `DigestAlgorithm` from `mod.rs`. -/
inductive DigestAlgorithm
  | Md5
  | Sha1
  | Sha224
  | Sha256
deriving DecidableEq, Repr

/-- `HashMode` from `mod.rs`. -/
inductive HashMode
  | Invalid
  | Digest (a : DigestAlgorithm)
  | Hmac (a : DigestAlgorithm)
deriving DecidableEq, Repr

/-- `OperationMode` from `mod.rs`. -/
inductive OperationMode
  | Idle
  | Hash
deriving DecidableEq, Repr

/-- Which client registration slot of `CryptoCell310` a completion is
delivered through. -/
inductive ClientSlot
  | md5
  | sha1
  | sha256
  | aes
  | trng
deriving DecidableEq, Repr

/-- The kind of completion callback. -/
inductive EventKind
  | addDataDone
  | hashDone
  | cryptDone
deriving DecidableEq, Repr

/-- A completion callback delivered to a registered client. -/
structure Event where
  slot : ClientSlot
  kind : EventKind
deriving DecidableEq, Repr

/-- The mutable driver state of `CryptoCell310` relevant to the hash
engine (field names follow the source struct; client cells are modelled
by whether a client is registered). -/
structure CCSt where
  usage_count : Nat
  current_op : OperationMode
  sha256_client : Bool
  sha1_client : Bool
  md5_client : Bool
  hash_digest_size : Nat
  hash_algo : HashMode
  hash_ctx : List Nat
  hash_hmac_opad_ctx : List Nat
  hash_total_size : Nat
  hash_data_queue : List Nat
deriving DecidableEq, Repr

/-- `CryptoCell310::new()`: the initial driver state. -/
def ccNew : CCSt :=
  { usage_count := 0
    current_op := .Idle
    sha256_client := false
    sha1_client := false
    md5_client := false
    hash_digest_size := 0
    hash_algo := .Invalid
    hash_ctx := List.replicate 8 0
    hash_hmac_opad_ctx := List.replicate 8 0
    hash_total_size := 0
    hash_data_queue := List.replicate 64 0 }

/-- `cc_hash_update` from `mod.rs`: load the driver's `hash_ctx` and
`hash_total_size` into the hardware, submit `data` (with automatic
padding when `is_last_block` and `data` is non-empty, or the explicit
`DO_PAD` trigger when `data` is empty), then read the context and the
hardware's running length counters back. The `enable`/`disable` pair
inside nets out on `usage_count`; `current_op` is set to `Hash` and
never reset. The hardware data path itself is modelled from the spec
through `compressBlocks`, `hwFeedFinal` and `hwDoPad`. -/
def cc_hash_update (f : CompressFn) (s : CCSt) (data : List Nat)
    (is_last_block : Bool) : CCSt :=
  let len0 := s.hash_total_size
  if data.length > 0 then
    if is_last_block then
      { s with current_op := .Hash
               hash_ctx := hwFeedFinal f s.hash_ctx data len0
               hash_total_size := w64 (len0 + data.length) }
    else
      { s with current_op := .Hash
               hash_ctx := compressBlocks f s.hash_ctx data
               hash_total_size := w64 (len0 + data.length) }
  else
    { s with current_op := .Hash
             hash_ctx := hwDoPad f s.hash_ctx len0 }

/-- `set_mode_md5` from `hash.rs`. -/
def set_mode_md5 (s : CCSt) : CCSt :=
  { s with hash_algo := .Digest .Md5
           hash_digest_size := 4
           hash_ctx := MD5_INIT ++ s.hash_ctx.drop 4
           hash_total_size := 0 }

/-- `set_mode_sha1` from `hash.rs`. -/
def set_mode_sha1 (s : CCSt) : CCSt :=
  { s with hash_algo := .Digest .Sha1
           hash_digest_size := 5
           hash_ctx := SHA1_INIT ++ s.hash_ctx.drop 5
           hash_total_size := 0 }

/-- `set_mode_sha224` from `hash.rs`. -/
def set_mode_sha224 (s : CCSt) : CCSt :=
  { s with hash_algo := .Digest .Sha224
           hash_digest_size := 8
           hash_ctx := SHA224_INIT ++ s.hash_ctx.drop 8
           hash_total_size := 0 }

/-- `set_mode_sha256` from `hash.rs`. -/
def set_mode_sha256 (s : CCSt) : CCSt :=
  { s with hash_algo := .Digest .Sha256
           hash_digest_size := 8
           hash_ctx := SHA256_INIT ++ s.hash_ctx.drop 8
           hash_total_size := 0 }

/-- `set_mode_hmacsha256(key)` from `hash.rs`: load the SHA-256 initial
constants, absorb the outer-pad block (`0x5c` xor zero-padded key) via
`cc_hash_update` with `is_final = false`, zero the total size, snapshot
the context into `hash_hmac_opad_ctx`, then reload the initial constants
and absorb the inner-pad block the same way. The 64-byte scratch `pad`
is a local copy of `hash_data_queue` that the loop overwrites entirely
and never stores back. -/
def set_mode_hmacsha256 (f : CompressFn) (s : CCSt) (key : List Nat) : CCSt :=
  let s0 := { s with hash_algo := .Hmac .Sha256, hash_digest_size := 8 }
  let initial_value := SHA256_INIT
  let s1 := { s0 with hash_ctx := initial_value }
  let opad := (List.range 64).map
    (fun i => 0x5c ^^^ (if i < key.length then key.getD i 0 else 0))
  let s2 := cc_hash_update f s1 opad false
  let s3 := { s2 with hash_total_size := 0 }
  let s4 := { s3 with hash_hmac_opad_ctx := s3.hash_ctx }
  let ipad := (List.range 64).map
    (fun i => 0x36 ^^^ (if i < key.length then key.getD i 0 else 0))
  let s5 := { s4 with hash_ctx := initial_value }
  let s6 := cc_hash_update f s5 ipad false
  { s6 with hash_total_size := 0 }

/-- `add_data` from `hash.rs`. The queued-block scratch `block` is a
local copy of `hash_data_queue`; the source modifies the copy (merging
the partial block, and copying the unprocessed tail into it) but never
stores it back into the cell. Returns the new state, the delivered
completion events, and the `Ok(slice_len)` result value. -/
def add_data (f : CompressFn) (s : CCSt) (data_slice : List Nat) :
    CCSt × List Event × Nat :=
  let slice_len := data_slice.length
  let cursor_in_block := s.hash_total_size % 64
  let left_in_block := 64 - cursor_in_block
  let s1 := { s with hash_total_size := w64 (s.hash_total_size + slice_len) }
  let s2 :=
    if slice_len < left_in_block then
      s1
    else
      let this_block := data_slice.take left_in_block
      let rest := data_slice.drop left_in_block
      let block1 := s.hash_data_queue.take cursor_in_block ++ this_block
      let sA := cc_hash_update f s1 block1 false
      let end_offset := rest.length - rest.length % 64
      let full_blocks := rest.take end_offset
      cc_hash_update f sA full_blocks false
  (s2, if s.sha256_client then [⟨.sha256, .addDataDone⟩] else [], slice_len)

/-- Write the first `n` words of `ctx` big-endian over the front of the
caller-supplied digest buffer (`digest[4i..4i+4] = ctx[i].to_be_bytes()`);
bytes past `4n` keep their previous content. -/
def writeDigest (buf ctx : List Nat) (n : Nat) : List Nat :=
  serializeWords ctx n ++ buf.drop (4 * n)

/-- `run` from `hash.rs`: flush the remaining partial block (read from
the stored `hash_data_queue`, whose length is `hash_total_size % 64`)
with `is_final = true`, serialise the context into the digest buffer,
and, in HMAC mode, reload the context from `hash_hmac_opad_ctx`, feed
`digest[..digest_size]` through the primitive with `is_final = true` and
overwrite the buffer with the second result. Returns the new state, the
delivered events, and the digest buffer handed to `hash_done`. -/
def runDigest (f : CompressFn) (s : CCSt) (digest : List Nat) :
    CCSt × List Event × List Nat :=
  let digest_size := s.hash_digest_size
  let cursor_in_block := s.hash_total_size % 64
  let s1 := cc_hash_update f s (s.hash_data_queue.take cursor_in_block) true
  let out1 := writeDigest digest s1.hash_ctx digest_size
  let (s9, out9) :=
    match s1.hash_algo with
    | .Hmac _ =>
        let s2 := { s1 with hash_ctx := s1.hash_hmac_opad_ctx }
        let s3 := cc_hash_update f s2 (out1.take digest_size) true
        (s3, writeDigest out1 s3.hash_ctx digest_size)
    | _ => (s1, out1)
  (s9, if s.sha256_client then [⟨.sha256, .hashDone⟩] else [], out9)

/-- `clear_data` from `hash.rs`: zero every byte of `hash_data_queue`
and every word of `hash_ctx` and `hash_hmac_opad_ctx`, in place. -/
def clear_data (s : CCSt) : CCSt :=
  { s with hash_data_queue := s.hash_data_queue.map (fun _ => 0)
           hash_ctx := s.hash_ctx.map (fun _ => 0)
           hash_hmac_opad_ctx := s.hash_hmac_opad_ctx.map (fun _ => 0) }

/-! ## Power/enable controller (`CryptoCell310::enable` / `disable`) -/

/-- The state touched by the reference-counted power controller:
`usage_count`, the Nordic power-enable register, the DMA clock enable,
the `host_rgf` interrupt mask, and the `host_rgf` endianness register. -/
structure PowerSt where
  usage_count : Nat
  powerOn : Bool
  dmaClk : Bool
  intMask : Nat
  endianCfg : Nat
deriving DecidableEq, Repr

/-- The interrupt-mask value written on power-up: `AXI_ERROR` (bit 8),
`PKA_EXP` (bit 9) and `RNG` (bit 10) set, the DMA-completion sources
(bits 4-7, 11) cleared. -/
def enableMaskValue : Nat := (1 <<< 8) ||| (1 <<< 9) ||| (1 <<< 10)

/-- The `RgfEndianness` value forcing all four fields little-endian
(every `LittleEndian` variant encodes as 0). -/
def endianLEValue : Nat := 0

/-- `CryptoCell310::enable` from `mod.rs`: on a count of 0, switch the
power domain on, force little-endian, start the DMA clock and write the
interrupt mask (the identity/signature reads only log); then increment
`usage_count`. With a non-zero count the increment is the only effect. -/
def ccEnable (s : PowerSt) : PowerSt :=
  if s.usage_count = 0 then
    { usage_count := 1
      powerOn := true
      dmaClk := true
      intMask := enableMaskValue
      endianCfg := endianLEValue }
  else
    { s with usage_count := s.usage_count + 1 }

/-- `CryptoCell310::disable` from `mod.rs`: a count of 0 returns at
once; otherwise decrement, and on reaching 0 zero the interrupt mask,
switch the power domain off and stop the DMA clock. -/
def ccDisable (s : PowerSt) : PowerSt :=
  if s.usage_count = 0 then s
  else
    let c := s.usage_count - 1
    if c = 0 then
      { s with usage_count := 0, intMask := 0, powerOn := false, dmaClk := false }
    else
      { s with usage_count := c }

/-- States of the power controller reachable from a powered-off reset
state (any initial endianness configuration) by `enable`/`disable`. -/
inductive PowerReachable : PowerSt → Prop
  | init (e : Nat) : PowerReachable
      { usage_count := 0, powerOn := false, dmaClk := false, intMask := 0, endianCfg := e }
  | en {s : PowerSt} : PowerReachable s → PowerReachable (ccEnable s)
  | dis {s : PowerSt} : PowerReachable s → PowerReachable (ccDisable s)

/-- The powered-on controller state with usage count `m`. -/
def onState (m : Nat) : PowerSt :=
  { usage_count := m
    powerOn := true
    dmaClk := true
    intMask := enableMaskValue
    endianCfg := endianLEValue }

/-- A powered-off reset state with a zeroed endianness register. -/
def powerReset : PowerSt :=
  { usage_count := 0, powerOn := false, dmaClk := false, intMask := 0, endianCfg := 0 }

/-! ## AES facade (`cryptocell/aes.rs`) -/

/-- Return codes used by the AES capability methods. -/
inductive ReturnCode
  | SUCCESS
  | EINVAL
  | EBUSY
deriving DecidableEq, Repr

/-- A write to one of the AES register banks. -/
inductive AesRegWrite
  | key0 (i v : Nat)
  | iv0 (i v : Nat)
  | ctr0 (i v : Nat)
deriving DecidableEq, Repr

/-- Assemble the `i`-th little-endian 32-bit word of a byte slice, as
`set_key`/`set_iv` do with shifts and ors. -/
def le32 (b : List Nat) (i : Nat) : Nat :=
  b.getD (4 * i) 0 ||| (b.getD (4 * i + 1) 0) <<< 8 |||
    (b.getD (4 * i + 2) 0) <<< 16 ||| (b.getD (4 * i + 3) 0) <<< 24

/-- `set_key` from `aes.rs`: reject any length other than
`AES128_KEY_SIZE` (16) before touching a register; otherwise write the
four `key0` words. Returns the code and the register writes performed. -/
def set_key (key : List Nat) : ReturnCode × List AesRegWrite :=
  if key.length ≠ 16 then (.EINVAL, [])
  else (.SUCCESS, (List.range 4).map (fun i => .key0 i (le32 key i)))

/-- `set_iv` from `aes.rs`: reject any length other than
`AES128_BLOCK_SIZE` (16) before touching a register; otherwise write
each word to both `iv0` and `ctr0`. -/
def set_iv (iv : List Nat) : ReturnCode × List AesRegWrite :=
  if iv.length ≠ 16 then (.EINVAL, [])
  else
    (.SUCCESS,
      ((List.range 4).map
        (fun i => [AesRegWrite.iv0 i (le32 iv i), AesRegWrite.ctr0 i (le32 iv i)])).flatten)

/-- `crypt` from `aes.rs`: with the AES busy flag set, return
`Some((EBUSY, source, dest))`; otherwise the body is commented out
upstream and the call returns `None` with no register write, no change
to the driver state (the struct has no field that could retain the
buffers) and no callback. `source`/`dest` stand for the caller's
buffers. -/
def crypt (s : CCSt) (busy : Bool) (source : Option Nat) (dest : Nat) :
    CCSt × Option (ReturnCode × Option Nat × Nat) × List AesRegWrite × List Event :=
  if busy then (s, some (.EBUSY, source, dest), [], [])
  else (s, none, [], [])

/-! ## Interrupt demultiplexer (`CryptoCell310::handle_interrupt`) -/

/-- Clear bit `b` of a 32-bit mask register (`modify` with the field set
to 0). -/
def maskClearBit (mask b : Nat) : Nat := mask &&& (0xffffffff ^^^ (1 <<< b))

/-- `handle_interrupt` from `mod.rs`: one `extract()` of the aggregate
`interrupts` status register (`intrs`), then, in program order, a write
of the matching one-bit value to `interrupt_clear` for each set cause
among `SRAM_TO_DIN` (bit 4), `DOUT_TO_SRAM` (5), `MEM_TO_DIN` (6),
`DOUT_TO_MEM` (7), `AXI_ERROR` (8), `PKA_EXP` (9) and
`SYM_DMA_COMPLETED` (11). For the `RNG` cause (bit 10) the clear is
commented out upstream; the handler only clears the `RNG` bit of
`interrupt_mask`. Returns the `interrupt_clear` writes in order and the
final mask value. -/
def handle_interrupt (intrs mask : Nat) : List Nat × Nat :=
  let clears : List Nat := []
  let clears := if intrs.testBit 4 then clears ++ [1 <<< 4] else clears
  let clears := if intrs.testBit 5 then clears ++ [1 <<< 5] else clears
  let clears := if intrs.testBit 6 then clears ++ [1 <<< 6] else clears
  let clears := if intrs.testBit 7 then clears ++ [1 <<< 7] else clears
  let clears := if intrs.testBit 8 then clears ++ [1 <<< 8] else clears
  let clears := if intrs.testBit 9 then clears ++ [1 <<< 9] else clears
  let mask1 := if intrs.testBit 10 then maskClearBit mask 10 else mask
  let clears := if intrs.testBit 11 then clears ++ [1 <<< 11] else clears
  (clears, mask1)

/-! ## Driver operations as a step relation -/

/-- The externally callable driver operations modelled here. -/
inductive DriverOp
  | opSetModeMd5
  | opSetModeSha1
  | opSetModeSha224
  | opSetModeSha256
  | opSetModeHmac (key : List Nat)
  | opAddData (d : List Nat)
  | opRunDigest (digest : List Nat)
  | opClearData
  | opCrypt (busy : Bool) (source : Option Nat) (dest : Nat)

/-- One driver entry point: resulting state and delivered completion
events. -/
def stepOp (f : CompressFn) (s : CCSt) : DriverOp → CCSt × List Event
  | .opSetModeMd5 => (set_mode_md5 s, [])
  | .opSetModeSha1 => (set_mode_sha1 s, [])
  | .opSetModeSha224 => (set_mode_sha224 s, [])
  | .opSetModeSha256 => (set_mode_sha256 s, [])
  | .opSetModeHmac key => (set_mode_hmacsha256 f s key, [])
  | .opAddData d => ((add_data f s d).1, (add_data f s d).2.1)
  | .opRunDigest dg => ((runDigest f s dg).1, (runDigest f s dg).2.1)
  | .opClearData => (clear_data s, [])
  | .opCrypt b src dst => ((crypt s b src dst).1, (crypt s b src dst).2.2.2)

/-- The completion events delivered along a sequence of driver calls. -/
def execTrace (f : CompressFn) (s : CCSt) : List DriverOp → List Event
  | [] => []
  | op :: rest => (stepOp f s op).2 ++ execTrace f (stepOp f s op).1 rest

/-! ## End-to-end digest experiments -/

/-- Digest bytes produced by `set_mode_sha256` on a fresh engine,
`add_data` for each chunk, then `run` into a zeroed 32-byte buffer. -/
def sha256DriverDigest (chunks : List (List Nat)) : List Nat :=
  let s0 := set_mode_sha256 ccNew
  let s1 := chunks.foldl (fun s c => (add_data sha256Compress s c).1) s0
  (runDigest sha256Compress s1 (List.replicate 32 0)).2.2

/-- Digest bytes produced by `set_mode_hmacsha256 key` on a fresh
engine, `add_data` for each chunk, then `run`. -/
def hmacDriverDigest (key : List Nat) (chunks : List (List Nat)) : List Nat :=
  let s0 := set_mode_hmacsha256 sha256Compress ccNew key
  let s1 := chunks.foldl (fun s c => (add_data sha256Compress s c).1) s0
  (runDigest sha256Compress s1 (List.replicate 32 0)).2.2

/-! ## Helper lemmas -/

/-- `cc_hash_update` only touches `hash_ctx`, `hash_total_size` and
`current_op`; in particular it never stores into `hash_data_queue`. -/
theorem cc_hash_update_queue (f : CompressFn) (s : CCSt) (d : List Nat) (b : Bool) :
    (cc_hash_update f s d b).hash_data_queue = s.hash_data_queue := by
  unfold cc_hash_update
  split
  · split <;> rfl
  · rfl

/-- `cc_hash_update` leaves the algorithm selection unchanged. -/
theorem cc_hash_update_algo (f : CompressFn) (s : CCSt) (d : List Nat) (b : Bool) :
    (cc_hash_update f s d b).hash_algo = s.hash_algo := by
  unfold cc_hash_update
  split
  · split <;> rfl
  · rfl

/-- `cc_hash_update` leaves the digest size unchanged. -/
theorem cc_hash_update_size (f : CompressFn) (s : CCSt) (d : List Nat) (b : Bool) :
    (cc_hash_update f s d b).hash_digest_size = s.hash_digest_size := by
  unfold cc_hash_update
  split
  · split <;> rfl
  · rfl

/-- Any one driver call delivers either nothing, one `add_data_done`, or
one `hash_done`, always through the SHA-256 client slot. -/
theorem stepOp_events (f : CompressFn) (s : CCSt) (op : DriverOp) :
    (stepOp f s op).2 = [] ∨
    (stepOp f s op).2 = [⟨.sha256, .addDataDone⟩] ∨
    (stepOp f s op).2 = [⟨.sha256, .hashDone⟩] := by
  cases op <;> simp [stepOp, add_data, runDigest, crypt]
  · split <;> simp
  · split <;> simp
  · split <;> simp

/-- Every event in every reachable trace satisfies any predicate that
holds of the two deliverable events. -/
theorem execTrace_all (f : CompressFn) (p : Event → Bool)
    (h1 : p ⟨.sha256, .addDataDone⟩ = true) (h2 : p ⟨.sha256, .hashDone⟩ = true) :
    ∀ (ops : List DriverOp) (s : CCSt), (execTrace f s ops).all p = true := by
  intro ops
  induction ops with
  | nil => intro s; rfl
  | cons op rest ih =>
      intro s
      simp only [execTrace, List.all_append]
      rcases stepOp_events f s op with h | h | h <;>
        simp [h, h1, h2, ih]

/-! ## Claim theorems -/

/-- C7: `clear_data` zeroes every byte of `hash_data_queue` and every
word of `hash_ctx` and `hash_hmac_opad_ctx` (lengths kept), and leaves
`hash_total_size`, the selected algorithm, the digest size, the usage
count and the registered clients unchanged. -/
theorem clear_data_frame (s : CCSt) :
    (clear_data s).hash_data_queue.all (fun b => b == 0) = true ∧
    (clear_data s).hash_data_queue.length = s.hash_data_queue.length ∧
    (clear_data s).hash_ctx.all (fun w => w == 0) = true ∧
    (clear_data s).hash_ctx.length = s.hash_ctx.length ∧
    (clear_data s).hash_hmac_opad_ctx.all (fun w => w == 0) = true ∧
    (clear_data s).hash_hmac_opad_ctx.length = s.hash_hmac_opad_ctx.length ∧
    (clear_data s).hash_total_size = s.hash_total_size ∧
    (clear_data s).hash_algo = s.hash_algo ∧
    (clear_data s).hash_digest_size = s.hash_digest_size ∧
    (clear_data s).usage_count = s.usage_count ∧
    (clear_data s).current_op = s.current_op ∧
    (clear_data s).sha256_client = s.sha256_client ∧
    (clear_data s).sha1_client = s.sha1_client ∧
    (clear_data s).md5_client = s.md5_client := by
  simp [clear_data, List.all_eq_true]

/-- C8: no hash operation other than `clear_data` ever stores into
`hash_data_queue`: `add_data` copies incoming tail bytes only into a
local copy of the block and never writes it back, and the same holds of
`run`, of the block-processing primitive, and of every mode-setting
call. -/
theorem hash_data_queue_frame (f : CompressFn) (s : CCSt)
    (d dg key : List Nat) (b : Bool) (src : Option Nat) (dst : Nat) :
    (add_data f s d).1.hash_data_queue = s.hash_data_queue ∧
    (cc_hash_update f s d b).hash_data_queue = s.hash_data_queue ∧
    (runDigest f s dg).1.hash_data_queue = s.hash_data_queue ∧
    (set_mode_md5 s).hash_data_queue = s.hash_data_queue ∧
    (set_mode_sha1 s).hash_data_queue = s.hash_data_queue ∧
    (set_mode_sha224 s).hash_data_queue = s.hash_data_queue ∧
    (set_mode_sha256 s).hash_data_queue = s.hash_data_queue ∧
    (set_mode_hmacsha256 f s key).hash_data_queue = s.hash_data_queue ∧
    (crypt s b src dst).1.hash_data_queue = s.hash_data_queue := by
  refine ⟨?_, cc_hash_update_queue f s d b, ?_, rfl, rfl, rfl, rfl, ?_, ?_⟩
  · by_cases h : d.length < 64 - s.hash_total_size % 64 <;>
      simp [add_data, h, cc_hash_update_queue]
  · rcases hAlgo : (cc_hash_update f s
        (List.take (s.hash_total_size % 64) s.hash_data_queue) true).hash_algo with _ | a | a <;>
      simp [runDigest, hAlgo, cc_hash_update_queue]
  · simp [set_mode_hmacsha256, cc_hash_update_queue]
  · cases b <;> rfl

/-- C9: `crypt` called while the AES busy flag is clear returns the
pending result `None`, performs no register write, leaves the driver
state unchanged (the struct has no field that could retain the source or
destination buffer), and no `crypt_done` completion is ever delivered by
any subsequent sequence of driver calls. -/
theorem crypt_not_busy_no_effect (f : CompressFn) (s : CCSt)
    (ops : List DriverOp) (source : Option Nat) (dest : Nat) :
    crypt s false source dest = (s, none, [], []) ∧
    (execTrace f s ops).all (fun e => e.kind != EventKind.cryptDone) = true := by
  constructor
  · rfl
  · exact execTrace_all f _ rfl rfl ops s

/-- C10: whatever algorithm is configured, `add_data` and `run` deliver
their completions through the SHA-256 client slot exactly when a client
is registered there (dropped otherwise), and no trace ever delivers an
event through the MD5 or SHA-1 slots. -/
theorem completions_use_sha256_client (f : CompressFn) (s : CCSt)
    (d dg : List Nat) (ops : List DriverOp) :
    (add_data f s d).2.1 = (if s.sha256_client then [⟨.sha256, .addDataDone⟩] else []) ∧
    (runDigest f s dg).2.1 = (if s.sha256_client then [⟨.sha256, .hashDone⟩] else []) ∧
    (execTrace f s ops).all (fun e => e.slot == ClientSlot.sha256) = true := by
  refine ⟨rfl, rfl, execTrace_all f _ rfl rfl ops s⟩

/-- C5: `set_key` rejects exactly the key lengths other than 16 with
`EINVAL` and performs no register write on rejection; a 16-byte key
succeeds. Likewise for `set_iv` with the 16-byte IV length. -/
theorem set_key_set_iv_validate (key iv : List Nat) :
    ((set_key key).1 = ReturnCode.EINVAL ↔ key.length ≠ 16) ∧
    ((set_key key).1 = ReturnCode.EINVAL → (set_key key).2 = []) ∧
    (key.length = 16 → (set_key key).1 = ReturnCode.SUCCESS) ∧
    ((set_iv iv).1 = ReturnCode.EINVAL ↔ iv.length ≠ 16) ∧
    ((set_iv iv).1 = ReturnCode.EINVAL → (set_iv iv).2 = []) ∧
    (iv.length = 16 → (set_iv iv).1 = ReturnCode.SUCCESS) := by
  unfold set_key set_iv
  by_cases hk : key.length = 16 <;> by_cases hi : iv.length = 16 <;>
    simp [hk, hi]

/-- Iterating `enable` from a zero-count state yields the powered-on
state with the matching count. -/
theorem ccEnable_iter (s : PowerSt) (h0 : s.usage_count = 0) (k : Nat) :
    ccEnable^[k + 1] s = onState (k + 1) := by
  induction k with
  | zero => simp [ccEnable, h0, onState]
  | succ k ih =>
      rw [Function.iterate_succ_apply', ih]
      simp [ccEnable, onState]

/-- Iterating `disable` as many times as the count powers the domain
down and returns every power/interrupt-mask field to its off value. -/
theorem ccDisable_iter (k : Nat) :
    ccDisable^[k + 1] (onState (k + 1)) =
      { usage_count := 0, powerOn := false, dmaClk := false,
        intMask := 0, endianCfg := endianLEValue } := by
  induction k with
  | zero => decide
  | succ k ih =>
      rw [Function.iterate_succ_apply]
      have hstep : ccDisable (onState (k + 1 + 1)) = onState (k + 1) := by
        simp [ccDisable, onState]
      rw [hstep, ih]

/-- In every reachable state with usage count 0 the power domain, the
DMA clock and the interrupt mask are all off. -/
theorem powerReachable_off {t : PowerSt} (ht : PowerReachable t) :
    t.usage_count = 0 → t.powerOn = false ∧ t.dmaClk = false ∧ t.intMask = 0 := by
  induction ht with
  | init e => exact fun _ => ⟨rfl, rfl, rfl⟩
  | en hs ih =>
      intro h0
      exfalso
      rename_i s
      by_cases hz : s.usage_count = 0 <;> simp [ccEnable, hz] at h0
  | dis hs ih =>
      intro h0
      rename_i s
      by_cases hz : s.usage_count = 0
      · have hid : ccDisable s = s := by simp [ccDisable, hz]
        rw [hid] at h0 ⊢
        exact ih h0
      · by_cases hc : s.usage_count - 1 = 0
        · simp [ccDisable, hz, hc]
        · simp [ccDisable, hz, hc] at h0

/-- In every reachable state the power domain is on exactly when the
usage count is positive. -/
theorem powerReachable_on {t : PowerSt} (ht : PowerReachable t) :
    t.powerOn = true ↔ 0 < t.usage_count := by
  induction ht with
  | init e => simp
  | en hs ih =>
      rename_i s
      by_cases hz : s.usage_count = 0
      · simp [ccEnable, hz, onState]
      · simp only [ccEnable, hz, if_false]
        exact iff_of_true (ih.mpr (Nat.pos_of_ne_zero hz)) (Nat.succ_pos _)
  | dis hs ih =>
      rename_i s
      by_cases hz : s.usage_count = 0
      · have hid : ccDisable s = s := by simp [ccDisable, hz]
        rw [hid]
        exact ih
      · by_cases hc : s.usage_count - 1 = 0
        · simp [ccDisable, hz, hc]
        · simp only [ccDisable, hz, if_false, hc]
          exact iff_of_true (ih.mpr (Nat.pos_of_ne_zero hz)) (Nat.pos_of_ne_zero hc)

/-- C3: from any reachable state with usage count 0, `n` `enable` calls
followed by `n` `disable` calls restore the count, the power domain, the
interrupt mask and the DMA clock; `enable` on a positive count only
increments; `disable` on a count of at least 2 only decrements;
`disable` on a count of 0 is a no-op; and in every reachable state the
power domain is on exactly when the count is positive. -/
theorem power_refcount (s : PowerSt) (n : Nat) (hn : 1 ≤ n)
    (hs : PowerReachable s) (h0 : s.usage_count = 0) :
    (ccDisable^[n] (ccEnable^[n] s)).usage_count = s.usage_count ∧
    (ccDisable^[n] (ccEnable^[n] s)).powerOn = s.powerOn ∧
    (ccDisable^[n] (ccEnable^[n] s)).intMask = s.intMask ∧
    (ccDisable^[n] (ccEnable^[n] s)).dmaClk = s.dmaClk ∧
    (∀ t : PowerSt, 0 < t.usage_count →
      ccEnable t = { t with usage_count := t.usage_count + 1 }) ∧
    (∀ t : PowerSt, 2 ≤ t.usage_count →
      ccDisable t = { t with usage_count := t.usage_count - 1 }) ∧
    (∀ t : PowerSt, t.usage_count = 0 → ccDisable t = t) ∧
    (∀ t : PowerSt, PowerReachable t → (t.powerOn = true ↔ 0 < t.usage_count)) := by
  obtain ⟨k, rfl⟩ : ∃ k, n = k + 1 := ⟨n - 1, by omega⟩
  obtain ⟨hop, hoc, hom⟩ := powerReachable_off hs h0
  rw [ccEnable_iter s h0 k, ccDisable_iter k]
  refine ⟨h0.symm, hop.symm, hom.symm, hoc.symm, ?_, ?_, ?_, ?_⟩
  · intro t ht
    have : ¬ t.usage_count = 0 := by omega
    simp [ccEnable, this]
  · intro t ht
    have h1 : ¬ t.usage_count = 0 := by omega
    have h2 : ¬ t.usage_count - 1 = 0 := by omega
    simp [ccDisable, h1, h2]
  · intro t ht
    simp [ccDisable, ht]
  · exact fun t ht => powerReachable_on ht

/-- C3 witness: two `enable` calls followed by two `disable` calls on the
reset state, by instantiating the reference-counting theorem. -/
theorem power_refcount_witness :
    (ccDisable^[2] (ccEnable^[2] powerReset)).usage_count = powerReset.usage_count ∧
    (ccDisable^[2] (ccEnable^[2] powerReset)).powerOn = powerReset.powerOn ∧
    (ccDisable^[2] (ccEnable^[2] powerReset)).intMask = powerReset.intMask ∧
    (ccDisable^[2] (ccEnable^[2] powerReset)).dmaClk = powerReset.dmaClk ∧
    (∀ t : PowerSt, 0 < t.usage_count →
      ccEnable t = { t with usage_count := t.usage_count + 1 }) ∧
    (∀ t : PowerSt, 2 ≤ t.usage_count →
      ccDisable t = { t with usage_count := t.usage_count - 1 }) ∧
    (∀ t : PowerSt, t.usage_count = 0 → ccDisable t = t) ∧
    (∀ t : PowerSt, PowerReachable t → (t.powerOn = true ↔ 0 < t.usage_count)) :=
  power_refcount powerReset 2 (by decide) (PowerReachable.init 0) rfl

/-- Out-of-range `getD` yields the default, so the source's explicit
zero-padding of the key coincides with `getD`. -/
theorem key_pad_if (key : List Nat) (c i : Nat) :
    c ^^^ (if i < key.length then key.getD i 0 else 0) = c ^^^ key.getD i 0 := by
  split
  · rfl
  · rw [List.getD_eq_default]
    omega

/-- C4: `set_mode_hmacsha256` leaves `hash_hmac_opad_ctx` holding the
context obtained by absorbing the outer-pad block (`0x5c` xor the
zero-padded key) from the SHA-256 initial constants with
`is_final = false`, leaves `hash_ctx` holding the context obtained by
absorbing the inner-pad block from the reloaded initial constants, and
returns with `hash_total_size` 0 (the pad blocks are not counted),
HMAC-SHA256 selected and digest size 8. -/
theorem set_mode_hmacsha256_spec (f : CompressFn) (s : CCSt) (key : List Nat)
    (hk : key.length = 32) :
    (set_mode_hmacsha256 f s key).hash_hmac_opad_ctx
      = compressBlocks f SHA256_INIT
          ((List.range 64).map (fun i => 0x5c ^^^ key.getD i 0)) ∧
    (set_mode_hmacsha256 f s key).hash_ctx
      = compressBlocks f SHA256_INIT
          ((List.range 64).map (fun i => 0x36 ^^^ key.getD i 0)) ∧
    (set_mode_hmacsha256 f s key).hash_total_size = 0 ∧
    (set_mode_hmacsha256 f s key).hash_algo = HashMode.Hmac DigestAlgorithm.Sha256 ∧
    (set_mode_hmacsha256 f s key).hash_digest_size = 8 := by
  unfold set_mode_hmacsha256 cc_hash_update
  simp
  constructor <;>
    · congr 1
      refine List.map_congr_left (fun i _ => ?_)
      by_cases h : i < key.length
      · simp [h]
      · simp [h, List.getElem?_eq_none (by omega : key.length ≤ i)]

/-- C4 witness: the configuration theorem instantiated with the SHA-256
hardware primitive, a fresh engine and the all-zero 32-byte key. -/
theorem set_mode_hmacsha256_spec_witness :
    (set_mode_hmacsha256 sha256Compress ccNew (List.replicate 32 0)).hash_hmac_opad_ctx
      = compressBlocks sha256Compress SHA256_INIT
          ((List.range 64).map (fun i => 0x5c ^^^ (List.replicate 32 0).getD i 0)) ∧
    (set_mode_hmacsha256 sha256Compress ccNew (List.replicate 32 0)).hash_ctx
      = compressBlocks sha256Compress SHA256_INIT
          ((List.range 64).map (fun i => 0x36 ^^^ (List.replicate 32 0).getD i 0)) ∧
    (set_mode_hmacsha256 sha256Compress ccNew (List.replicate 32 0)).hash_total_size = 0 ∧
    (set_mode_hmacsha256 sha256Compress ccNew (List.replicate 32 0)).hash_algo
      = HashMode.Hmac DigestAlgorithm.Sha256 ∧
    (set_mode_hmacsha256 sha256Compress ccNew (List.replicate 32 0)).hash_digest_size = 8 :=
  set_mode_hmacsha256_spec sha256Compress ccNew (List.replicate 32 0) (by simp)

/-- C6 counterexample: with only the RNG cause bit (bit 10) set in the
status snapshot, `handle_interrupt` performs no `interrupt_clear` write
at all, contrary to the claim that every set cause bit gets a clear. -/
theorem handle_interrupt_rng_not_cleared :
    Nat.testBit 1024 10 = true ∧
    ¬ (1 <<< 10) ∈ (handle_interrupt 1024 enableMaskValue).1 := by decide

/-- C6 amended: the `interrupt_clear` writes are exactly one write of
the matching bit, in program order, for each set cause among bits 4-9
and 11; the RNG cause (bit 10) is never cleared, and its only effect is
clearing the RNG bit of `interrupt_mask` (re-masking the source). -/
theorem handle_interrupt_amended (intrs mask : Nat) :
    (handle_interrupt intrs mask).1
      = ([4, 5, 6, 7, 8, 9, 11].filter intrs.testBit).map (fun b => 1 <<< b) ∧
    (handle_interrupt intrs mask).2
      = (if intrs.testBit 10 then maskClearBit mask 10 else mask) := by
  cases h4 : intrs.testBit 4 <;> cases h5 : intrs.testBit 5 <;>
    cases h6 : intrs.testBit 6 <;> cases h7 : intrs.testBit 7 <;>
    cases h8 : intrs.testBit 8 <;> cases h9 : intrs.testBit 9 <;>
    cases h10 : intrs.testBit 10 <;> cases h11 : intrs.testBit 11 <;>
    simp [handle_interrupt, List.filter, h4, h5, h6, h7, h8, h9, h10, h11]

set_option maxRecDepth 100000 in
/-- Validation of the embedding: the reference SHA-256 matches the
standard digest of `"abc"`. -/
theorem sha256Spec_abc :
    sha256Spec [0x61, 0x62, 0x63] =
      [0xba, 0x78, 0x16, 0xbf, 0x8f, 0x01, 0xcf, 0xea,
       0x41, 0x41, 0x40, 0xde, 0x5d, 0xae, 0x22, 0x23,
       0xb0, 0x03, 0x61, 0xa3, 0x96, 0x17, 0x7a, 0x9c,
       0xb4, 0x10, 0xff, 0x61, 0xf2, 0x00, 0x15, 0xad] := by decide

set_option maxRecDepth 100000 in
/-- Validation of the embedding: the reference SHA-256 of the empty
message matches the standard empty-digest constant. -/
theorem sha256Spec_empty :
    sha256Spec [] =
      [0xe3, 0xb0, 0xc4, 0x42, 0x98, 0xfc, 0x1c, 0x14,
       0x9a, 0xfb, 0xf4, 0xc8, 0x99, 0x6f, 0xb9, 0x24,
       0x27, 0xae, 0x41, 0xe4, 0x64, 0x9b, 0x93, 0x4c,
       0xa4, 0x95, 0x99, 0x1b, 0x78, 0x52, 0xb8, 0x55] := by decide

set_option maxRecDepth 100000 in
/-- The driver does not even compute SHA-256 on a single `add_data`
call: the tail bytes merged into the local block copy are lost, so `run`
hashes the stale queue contents instead of the message. -/
theorem sha256_driver_single_call_wrong :
    sha256DriverDigest [[0x61, 0x62, 0x63]] ≠ sha256Spec [0x61, 0x62, 0x63] := by decide

set_option maxRecDepth 100000 in
/-- C1: chunk-invariance fails on the code. The same 64-byte message
(64 bytes of `0x01`) hashed after `set_mode_sha256` on a fresh engine
produces different digest bytes when passed as one `add_data` call
versus two 32-byte calls, because `add_data` never stores the merged
block back into `hash_data_queue`. -/
theorem chunked_digest_differs :
    List.replicate 64 1 = List.replicate 32 1 ++ (List.replicate 32 1 : List Nat) ∧
    sha256DriverDigest [List.replicate 64 1]
      ≠ sha256DriverDigest [List.replicate 32 1, List.replicate 32 1] := by
  exact ⟨by decide, by decide⟩

set_option maxRecDepth 100000 in
/-- C2: HMAC end-to-end correctness fails on the code. For the all-zero
32-byte key and the message `"abc"` in a single `add_data` call, the
driver's output differs from the standard two-pass HMAC-SHA256: the
message tail is never persisted (the stale queue is hashed instead), the
length registers double-count, and the second pass absorbs only
`digest_size` bytes (8) of the 32-byte inner digest. -/
theorem hmac_digest_differs_from_reference :
    hmacDriverDigest (List.replicate 32 0) [[0x61, 0x62, 0x63]]
      ≠ hmacSha256Spec (List.replicate 32 0) [0x61, 0x62, 0x63] := by decide

/-- C5 witness: a 3-byte key is rejected with no writes and a 16-byte IV
is accepted, by instantiating the validation theorem. -/
theorem set_key_set_iv_validate_witness :
    ((set_key [1, 2, 3]).1 = ReturnCode.EINVAL ↔ ([1, 2, 3] : List Nat).length ≠ 16) ∧
    ((set_key [1, 2, 3]).1 = ReturnCode.EINVAL → (set_key [1, 2, 3]).2 = []) ∧
    (([1, 2, 3] : List Nat).length = 16 → (set_key [1, 2, 3]).1 = ReturnCode.SUCCESS) ∧
    ((set_iv (List.replicate 16 7)).1 = ReturnCode.EINVAL ↔ (List.replicate 16 7).length ≠ 16) ∧
    ((set_iv (List.replicate 16 7)).1 = ReturnCode.EINVAL → (set_iv (List.replicate 16 7)).2 = []) ∧
    ((List.replicate 16 7).length = 16 → (set_iv (List.replicate 16 7)).1 = ReturnCode.SUCCESS) :=
  set_key_set_iv_validate [1, 2, 3] (List.replicate 16 7)

end CC
